import Mathlib

/-!
Verification development for the chat-relay media downloader
(`src/unnamed/part_002`, with `src/server.js` as a sibling variant).

The correlation engine, the event classifier, the format-menu parser,
the progress tracker, the connection-error handler, the byte-range file
server and the progress-poll endpoint are embedded as executable Lean
definitions translated from the JavaScript source; the theorems below
settle the frozen claims about them.
-/

namespace Downloader

/-! ## String helpers (JavaScript `String.prototype.includes`, regex scanning) -/

/-- Does `needle` occur at the very start of `hay`? (character-exact). -/
def hasPre : List Char → List Char → Bool
  | [], _ => true
  | _ :: _, [] => false
  | n :: ns, h :: hs => n == h && hasPre ns hs

/-- Does `needle` occur anywhere in `hay`? (JS `hay.includes(needle)`). -/
def hasSub (needle : List Char) : List Char → Bool
  | [] => needle.isEmpty
  | c :: t => hasPre needle (c :: t) || hasSub needle t

/-- JS `hay.includes(needle)`, on `String`. -/
def strIncludes (hay needle : String) : Bool :=
  hasSub needle.toList hay.toList

/-- Case-insensitive character comparison (the `/i` regex flag). -/
def lcEq (a b : Char) : Bool := a.toLower == b.toLower

/-- Numeric value of a run of decimal digit characters (JS `parseInt` on a
digit string). -/
def digitsToNat (ds : List Char) : Nat :=
  ds.foldl (fun acc c => 10 * acc + (c.toNat - 48)) 0

/-! ## Format-menu parser (`parseYouTubeFormats`, src/unnamed/part_002 lines 560-586) -/

/-- One parsed quality entry `{ quality, size }`. -/
structure YFormat where
  quality : String
  size : String
  deriving DecidableEq

/-- The fixed label vocabulary of `formatPatterns`, in source order
(src/unnamed/part_002 lines 564-572). -/
def formatPatternLabels : List String :=
  ["1080p", "720p", "480p", "360p", "240p", "144p", "MP3"]

/-- Match the regex `label\s*:\s*(\d+MB)/i` anchored at the start of `hay`:
the label case-insensitively, optional whitespace, a colon, optional
whitespace, one or more digits, then `MB` case-insensitively.  Returns the
capture group `(\d+MB)` as the matched characters (digits plus the
actually-matched `MB` letters). -/
def tryLabelAt (label : List Char) (hay : List Char) : Option (List Char) :=
  let rec eatLabel : List Char → List Char → Option (List Char)
    | [], rest => some rest
    | _ :: _, [] => none
    | l :: ls, c :: cs => if lcEq l c then eatLabel ls cs else none
  match eatLabel label hay with
  | none => none
  | some rest1 =>
    let rest2 := rest1.dropWhile Char.isWhitespace
    match rest2 with
    | ':' :: rest3 =>
      let rest4 := rest3.dropWhile Char.isWhitespace
      let digits := rest4.takeWhile Char.isDigit
      if digits.isEmpty then none
      else
        match rest4.drop digits.length with
        | m :: b :: _ =>
          if lcEq m 'M' && lcEq b 'B' then some (digits ++ [m, b]) else none
        | _ => none
    | _ => none

/-- First (leftmost) match of `label\s*:\s*(\d+MB)/i` in `hay`
(JS `text.match(regex)` scanning semantics). -/
def scanLabel (label : List Char) : List Char → Option (List Char)
  | [] => none
  | c :: t =>
    match tryLabelAt label (c :: t) with
    | some cap => some cap
    | none => scanLabel label t

/-- `parseYouTubeFormats` (src/unnamed/part_002 lines 560-586): one entry per
label of the fixed vocabulary whose `label: sizeMB` pattern matches the text,
in vocabulary order; unmatched labels contribute nothing. -/
def parseYouTubeFormats (text : String) : List YFormat :=
  formatPatternLabels.filterMap fun q =>
    (scanLabel q.toList text.toList).map fun cap => ⟨q, String.mk cap⟩

/-! ## Progress tracking (src/unnamed/part_002 lines 322-335, 876-898) -/

/-- A `downloadProgress` map entry (created at src/unnamed/part_002
lines 767-773, mutated at lines 327-332, 383-392, 517-526, 545-551). -/
structure ProgRecord where
  progress : Nat
  status : String
  complete : Bool
  success : Bool
  error : Option String
  videoUrl : Option String
  fileName : Option String
  deriving DecidableEq

/-- First (leftmost) match of the regex `(\d+)%` in the text
(JS `text.match(/(\d+)%/)` at src/unnamed/part_002 line 324), returning the
numeric value of the captured digit run. -/
def findPercent : List Char → Option Nat
  | [] => none
  | c :: t =>
    let ds := (c :: t).takeWhile Char.isDigit
    if ds.isEmpty then findPercent t
    else
      match (c :: t).drop ds.length with
      | '%' :: _ => some (digitsToNat ds)
      | _ => findPercent t

/-- Modelled from the spec: "extract a percentage via a trailing `NN%`
pattern" — a digit run immediately followed by `%` at the very end of the
text.  Used only to compare the spec's wording with the code's
first-match extraction. -/
def trailingPercentSpec (text : String) : Option Nat :=
  match text.toList.reverse with
  | '%' :: rest =>
    let ds := rest.takeWhile Char.isDigit
    if ds.isEmpty then none else some (digitsToNat ds.reverse)
  | _ => none

/-- The broadcast update of src/unnamed/part_002 lines 327-332: every
still-incomplete record gets the extracted percent and a fresh status
string; complete records are untouched. -/
def applyProgressBroadcast (p : Nat) (recs : List ProgRecord) : List ProgRecord :=
  recs.map fun v =>
    if v.complete then v
    else { v with progress := p, status := "Downloading: " ++ toString p ++ "%" }

/-- Is the text classified as a progress update?
(src/unnamed/part_002 line 323). -/
def isProgressText (text : String) : Bool :=
  strIncludes text "📥 Downloading" || strIncludes text "■"

/-- The progress-tracking branch of `handleIncomingMessage`
(src/unnamed/part_002 lines 322-335): on a classified progress text whose
percentage extraction succeeds, broadcast the percent; otherwise leave the
records unchanged. -/
def handleProgressText (text : String) (recs : List ProgRecord) : List ProgRecord :=
  if isProgressText text then
    match findPercent text.toList with
    | some p => applyProgressBroadcast p recs
    | none => recs
  else recs

/-! ## Media-document classification (src/unnamed/part_002 lines 412-451) -/

/-- The three media buckets. -/
inductive MediaKind where
  | video
  | audio
  | image
  deriving DecidableEq

/-- `isVideo` (src/unnamed/part_002 lines 419-420). -/
def isVideoDoc (attrs : List String) (mime : String) : Bool :=
  attrs.any (fun a => a == "DocumentAttributeVideo") || strIncludes mime "video"

/-- `isAudio` (src/unnamed/part_002 lines 421-424). -/
def isAudioDoc (attrs : List String) (mime : String) : Bool :=
  attrs.any (fun a => a == "DocumentAttributeAudio") ||
    strIncludes mime "audio" || strIncludes mime "mpeg" ||
    strIncludes mime "mp3" || strIncludes mime "ogg" ||
    strIncludes mime "wav" || strIncludes mime "m4a"

/-- `isImage` (src/unnamed/part_002 lines 425-426). -/
def isImageDoc (attrs : List String) (mime : String) : Bool :=
  strIncludes mime "image/" ||
    attrs.any (fun a => a == "DocumentAttributeImageSize")

/-- The audio skip guard of src/unnamed/part_002 lines 428-433: an
audio-only document is dropped when a video or image was already recorded
for some request, OR when the pending-downloads map is non-empty. -/
def audioSkipGuard (receivedTypes : List String) (pendingCount : Nat) : Bool :=
  receivedTypes.any (fun t => t == "video" || t == "image") || pendingCount > 0

/-- Classification outcome of the document branch of `handleIncomingMessage`
(src/unnamed/part_002 lines 412-451): `none` means the event is dropped with
no side effect.  The type-inference block at lines 437-447 assigns to the
`const` bindings `isVideo`/`isAudio`/`isImage`, which throws a `TypeError`
caught by the handler's outer `try` — so every document reaching that block
is dropped, whether a substring matches or not. -/
def classifyDocument (attrs : List String) (mime : String)
    (receivedTypes : List String) (pendingCount : Nat) : Option MediaKind :=
  let iv := isVideoDoc attrs mime
  let ia := isAudioDoc attrs mime
  let ii := isImageDoc attrs mime
  if ia && !iv && !ii && audioSkipGuard receivedTypes pendingCount then none
  else if !iv && !ia && !ii then none
  else some (if iv then .video else if ia then .audio else .image)

/-! ## Request correlator (the `pendingDownloads` map) -/

/-- A resolution payload handed to a pending request's `resolve` callback:
a parsed format list (src/unnamed/part_002 line 315) or a saved media
descriptor (line 513, abstracted to its URL).  A timeout or failure
resolution passes `null`, modelled as `Option.none` around this type. -/
inductive DlResult where
  | formatsRes (fmts : List YFormat)
  | mediaRes (url : String)
  deriving DecidableEq

/-- Correlator state: the `pendingDownloads` map (insertion-ordered keys,
as a JS `Map` iterates) plus a log of every resolution performed,
as (identifier, payload-or-null) in the order the callbacks were invoked. -/
structure CorrState where
  pendingDownloads : List Nat
  resolvedLog : List (Nat × Option DlResult)
  deriving DecidableEq

/-- The empty correlator. -/
def initCorr : CorrState := ⟨[], []⟩

/-- Events driving the correlator: registration of a fresh request by an
HTTP handler, a classified format-list event, a terminal media payload
whose persistence succeeded, one whose persistence failed, and a timer
firing for a given identifier. -/
inductive BotEvent where
  | registerReq (id : Nat)
  | formatList (fmts : List YFormat)
  | mediaOk (url : String)
  | mediaFail
  | timeoutFire (id : Nat)
  deriving DecidableEq

/-- Resolve-and-delete loop over every entry of `pendingDownloads`
(src/unnamed/part_002 lines 512-515 on success, 540-543 on failure):
each waiting callback is invoked with the same result and its key removed,
leaving the map empty. -/
def resolveAllPending (s : CorrState) (r : Option DlResult) : CorrState :=
  { pendingDownloads := [],
    resolvedLog := s.resolvedLog ++ s.pendingDownloads.map (fun k => (k, r)) }

/-- One correlator step.  `registerReq` models
`pendingDownloads.set(requestId, resolve)` with `requestId = Date.now()`
(src/unnamed/part_002 lines 623-624, 705-706, 766, 842); freshness of the
identifier — never currently pending nor previously resolved — reflects
the monotonically-issued wall-clock key, so a stale identifier registers
nothing.  `formatList` is the resolve-first-then-break loop of lines
314-318.  `mediaOk`/`mediaFail` are the resolve-all loops of lines 512-515
and 540-543.  `timeoutFire` is the guarded timer body of lines 627-632 /
709-714: only if the key is still present is it deleted and resolved with
`null`; otherwise the firing is a no-op. -/
def stepCorr (s : CorrState) : BotEvent → CorrState
  | .registerReq id =>
    if s.pendingDownloads.contains id || s.resolvedLog.any (fun p => p.1 == id) then s
    else { s with pendingDownloads := s.pendingDownloads ++ [id] }
  | .formatList fmts =>
    match s.pendingDownloads with
    | [] => s
    | k :: rest =>
      { pendingDownloads := rest,
        resolvedLog := s.resolvedLog ++ [(k, some (.formatsRes fmts))] }
  | .mediaOk url => resolveAllPending s (some (.mediaRes url))
  | .mediaFail => resolveAllPending s none
  | .timeoutFire id =>
    if s.pendingDownloads.contains id then
      { pendingDownloads := s.pendingDownloads.erase id,
        resolvedLog := s.resolvedLog ++ [(id, none)] }
    else s

/-- Run the correlator over a sequence of handled events and timer firings. -/
def runCorr (tr : List BotEvent) : CorrState := tr.foldl stepCorr initCorr

/-- Timeout for a formats request, ms (src/unnamed/part_002 line 714). -/
def FORMATS_TIMEOUT_MS : Nat := 30000

/-- Timeout for a download request, ms (src/unnamed/part_002 lines 632, 860). -/
def DOWNLOAD_TIMEOUT_MS : Nat := 120000

/-! ## Download-failure path (src/unnamed/part_002 lines 126-132, 534-551) -/

/-- Delete a path from the file system if present
(`if (fs.existsSync(filePath)) fs.unlinkSync(filePath)`,
src/unnamed/part_002 lines 128-130 and 536-538; the file system is a finite
set of existing paths). -/
def unlinkIfExists (fsFiles : List String) (filePath : String) : List String :=
  fsFiles.filter (fun q => q ≠ filePath)

/-- Mark a still-incomplete progress record failed
(src/unnamed/part_002 lines 545-551). -/
def markProgressFailed (recs : List ProgRecord) : List ProgRecord :=
  recs.map fun v =>
    if v.complete then v
    else { v with complete := true, success := false, error := some "Download failed" }

/-- The `catch (downloadError)` path of `handleIncomingMessage`
(src/unnamed/part_002 lines 534-551), with the partial-file cleanup that
`fastDownloadMedia` itself already performs before rethrowing
(lines 126-132): the target path is unlinked if present, every waiting
pending request is resolved with `null` and removed, and every incomplete
progress record is marked complete, unsuccessful, with an error message. -/
def handleDownloadError (filePath : String) (fsFiles : List String)
    (s : CorrState) (recs : List ProgRecord) :
    List String × CorrState × List ProgRecord :=
  (unlinkIfExists fsFiles filePath, resolveAllPending s none, markProgressFailed recs)

/-- The `catch (error)` path of the `MessageMediaPhoto` branch
(src/unnamed/part_002 lines 402-409): every waiting pending request is
resolved with `null` and removed, but — unlike the document path — no
`existsSync`/`unlinkSync` cleanup of the target path is performed and the
`downloadProgress` records are not touched. -/
def handlePhotoError (fsFiles : List String) (s : CorrState)
    (recs : List ProgRecord) : List String × CorrState × List ProgRecord :=
  (fsFiles, resolveAllPending s none, recs)

/-! ## Connection manager error handling (src/unnamed/part_002 lines 163-173, 217-229, 248-285) -/

/-- Connection-manager state: the `isConnected` and `isReconnecting` flags
and whether a reconnect timer is armed (`reconnectTimeout`). -/
structure ConnState where
  isConnected : Bool
  isReconnecting : Bool
  reconnectTimer : Bool
  deriving DecidableEq

/-- The duplicate-session error class
(src/unnamed/part_002 lines 165, 223, 274). -/
def DUP_SESSION : String := "AUTH_KEY_DUPLICATED"

/-- `scheduleReconnect` (src/unnamed/part_002 lines 248-285): a no-op while
a reconnection is already in progress; otherwise (re)arms the reconnect
timer. -/
def scheduleReconnect (s : ConnState) : ConnState :=
  if s.isReconnecting then s else { s with reconnectTimer := true }

/-- The `client.on('error')` handler (src/unnamed/part_002 lines 163-173):
a duplicate-session error marks the connection down, clears the
reconnecting flag and returns without scheduling anything; any other error
marks the connection down and calls `scheduleReconnect`. -/
def clientErrorHandler (msg : String) (s : ConnState) : ConnState :=
  if strIncludes msg DUP_SESSION then
    { s with isConnected := false, isReconnecting := false }
  else
    scheduleReconnect { s with isConnected := false }

/-- The `catch` block of `initTelegram` (src/unnamed/part_002 lines
217-229): same shape — duplicate-session returns without scheduling a
reconnect, everything else schedules one. -/
def initCatchHandler (msg : String) (s : ConnState) : ConnState :=
  let s1 := { s with isConnected := false, isReconnecting := false }
  if strIncludes msg DUP_SESSION then s1 else scheduleReconnect s1

/-! ## Byte-range file serving (src/unnamed/part_002 lines 900-991) -/

/-- The observable shape of a `/downloads/:filename` response: HTTP status,
`Content-Range` header, `Content-Length` header (an `Int`, since the code
computes `end - start + 1` without validation), and the number of body
bytes actually streamed. -/
structure FileResp where
  status : Nat
  contentRange : Option String
  contentLength : Int
  bodyLen : Nat
  deriving DecidableEq

/-- JS `parseInt(s, 10)` restricted to its numeric regime: the value of the
leading digit run.  (On input with no leading digits `parseInt` yields
`NaN`; that regime is not exercised by well-formed range headers and is
outside this model.) -/
def parseIntNat (s : String) : Nat :=
  digitsToNat (s.toList.takeWhile Char.isDigit)

/-- The `Content-Range` header value
(src/unnamed/part_002 line 981). -/
def contentRangeStr (start endv total : Nat) : String :=
  "bytes " ++ toString start ++ "-" ++ toString endv ++ "/" ++ toString total

/-- Bytes delivered by `fs.createReadStream(filePath, { start, end })`
piped to the response: the inclusive range clipped to the end of the
file (Node stream semantics for an existing file of `size` bytes). -/
def streamLen (size start endv : Nat) : Nat :=
  if start < size then min endv (size - 1) + 1 - start else 0

/-- The range branch of the `/downloads/:filename` handler
(src/unnamed/part_002 lines 974-985): status 206, `Content-Range`
`bytes start-end/total`, `Content-Length` `end - start + 1`, body streamed
from `start` through `end` inclusive. -/
def rangeResp (size start endv : Nat) : FileResp :=
  { status := 206,
    contentRange := some (contentRangeStr start endv size),
    contentLength := (endv : Int) - (start : Int) + 1,
    bodyLen := streamLen size start endv }

/-- JS `String.prototype.split` with a single-character separator: split at
every occurrence of `sep` (src/unnamed/part_002 line 975 splits on `-`). -/
def splitOnChar (sep : Char) : List Char → List (List Char)
  | [] => [[]]
  | c :: t =>
    let r := splitOnChar sep t
    if c == sep then [] :: r
    else
      match r with
      | [] => [[c]]
      | h :: rest => (c :: h) :: rest

/-- Remove the first occurrence of `needle` from `hay`
(JS `hay.replace(/bytes=/, '')`, src/unnamed/part_002 line 975). -/
def removeFirstSub (needle : List Char) : List Char → List Char
  | [] => []
  | c :: t =>
    if hasPre needle (c :: t) then (c :: t).drop needle.length
    else c :: removeFirstSub needle t

/-- The `/downloads/:filename` handler's response for an existing file of
`size` bytes (src/unnamed/part_002 lines 968-990): with a `Range` header
the header is stripped of `bytes=`, split on `-`, both bounds parsed
(a missing or empty end bound defaults to `size - 1`), and the 206 range
response produced; with no `Range` header the whole file is sent with the
default 200 status. -/
def serveDownload (size : Nat) (range : Option String) : FileResp :=
  match range with
  | none =>
    { status := 200, contentRange := none, contentLength := (size : Int),
      bodyLen := size }
  | some r =>
    let stripped := removeFirstSub "bytes=".toList r.toList
    let parts := splitOnChar '-' stripped
    let start := parseIntNat (String.mk (parts.headD []))
    let endv :=
      match parts.drop 1 with
      | [] => size - 1
      | e :: _ => if e.isEmpty then size - 1 else parseIntNat (String.mk e)
    rangeResp size start endv

/-! ## Progress-poll endpoint (src/unnamed/part_002 lines 876-898) -/

/-- The fixed body returned for an unknown request identifier
(src/unnamed/part_002 lines 890-896). -/
def progressNotFoundBody : ProgRecord :=
  { progress := 0, status := "Unknown request", complete := true,
    success := false, error := some "Request not found",
    videoUrl := none, fileName := none }

/-- Lookup in the `downloadProgress` map. -/
def lookupProgress (id : Nat) (m : List (Nat × ProgRecord)) : Option ProgRecord :=
  (m.find? (fun kv => kv.1 == id)).map (fun kv => kv.2)

/-- `GET /api/youtube/progress/:id` (src/unnamed/part_002 lines 876-898):
returns (HTTP status, body, map after the request).  A known identifier
echoes its record (a purge is only scheduled 60 s later, so the map is
unchanged at response time); an unknown identifier gets the fixed
not-found body with the default 200 status, and the map is untouched. -/
def progressEndpoint (id : Nat) (m : List (Nat × ProgRecord)) :
    Nat × ProgRecord × List (Nat × ProgRecord) :=
  match lookupProgress id m with
  | some p => (200, p, m)
  | none => (200, progressNotFoundBody, m)

/-! ## Correlator invariant -/

/-- Invariant of the correlator: pending keys are distinct, no identifier
appears twice in the resolution log, and no pending key has already been
resolved. -/
def CorrInv (s : CorrState) : Prop :=
  s.pendingDownloads.Nodup ∧ (s.resolvedLog.map Prod.fst).Nodup ∧
    ∀ k ∈ s.pendingDownloads, k ∉ s.resolvedLog.map Prod.fst

lemma corrInv_init : CorrInv initCorr := by
  simp [CorrInv, initCorr]

lemma map_fst_pair (r : Option DlResult) (l : List Nat) :
    List.map Prod.fst (l.map fun k => (k, r)) = l := by
  induction l with
  | nil => rfl
  | cons a t ih => simp only [List.map_cons, ih]

lemma corrInv_step (s : CorrState) (e : BotEvent) (h : CorrInv s) :
    CorrInv (stepCorr s e) := by
  obtain ⟨hp, hr, hd⟩ := h
  cases e with
  | registerReq id =>
    simp only [stepCorr]
    split
    · exact ⟨hp, hr, hd⟩
    · rename_i hcond
      rw [Bool.or_eq_true, not_or] at hcond
      obtain ⟨hc1, hc2⟩ := hcond
      have hidp : id ∉ s.pendingDownloads := by
        intro hmem
        exact hc1 (List.elem_eq_true_of_mem hmem)
      have hidr : id ∉ s.resolvedLog.map Prod.fst := by
        intro hmem
        obtain ⟨⟨k, r⟩, hkr, hfst⟩ := List.mem_map.mp hmem
        exact hc2 (List.any_eq_true.mpr ⟨(k, r), hkr, by simpa using hfst⟩)
      refine ⟨?_, hr, ?_⟩
      · exact List.Nodup.append hp (List.nodup_singleton id)
          (by simpa [List.disjoint_singleton] using hidp)
      · intro k hk
        rcases List.mem_append.mp hk with hk | hk
        · exact hd k hk
        · have hkid : k = id := by simpa using hk
          subst hkid
          exact hidr
  | formatList fmts =>
    simp only [stepCorr]
    cases hpd : s.pendingDownloads with
    | nil =>
      show CorrInv s
      exact ⟨hp, hr, hd⟩
    | cons k rest =>
      show CorrInv ⟨rest, s.resolvedLog ++ [(k, some (.formatsRes fmts))]⟩
      rw [hpd] at hp hd
      have hknr : k ∉ rest := (List.nodup_cons.mp hp).1
      have hrest : rest.Nodup := (List.nodup_cons.mp hp).2
      refine ⟨hrest, ?_, ?_⟩
      · rw [List.map_append]
        exact List.Nodup.append hr (by simp)
          (by simpa [List.disjoint_singleton] using hd k (by simp))
      · intro k' hk'
        rw [List.map_append, List.mem_append]
        rintro (hin | hin)
        · exact hd k' (by simp [hk']) hin
        · simp at hin
          exact hknr (hin ▸ hk')
  | mediaOk url =>
    simp only [stepCorr, resolveAllPending]
    refine ⟨List.nodup_nil, ?_, by simp⟩
    rw [List.map_append, map_fst_pair]
    exact List.Nodup.append hr hp (fun a ha hb => hd a hb ha)
  | mediaFail =>
    simp only [stepCorr, resolveAllPending]
    refine ⟨List.nodup_nil, ?_, by simp⟩
    rw [List.map_append, map_fst_pair]
    exact List.Nodup.append hr hp (fun a ha hb => hd a hb ha)
  | timeoutFire id =>
    simp only [stepCorr]
    split
    · rename_i hcond
      have hidp : id ∈ s.pendingDownloads := by
        simpa using hcond
      refine ⟨hp.erase id, ?_, ?_⟩
      · rw [List.map_append]
        exact List.Nodup.append hr (by simp)
          (by simpa [List.disjoint_singleton] using hd id hidp)
      · intro k hk
        have hk' : k ∈ s.pendingDownloads := List.mem_of_mem_erase hk
        have hkne : k ≠ id := (List.Nodup.mem_erase_iff hp).mp hk |>.1
        rw [List.map_append, List.mem_append]
        rintro (hin | hin)
        · exact hd k hk' hin
        · simp at hin
          exact hkne hin
    · exact ⟨hp, hr, hd⟩

lemma corrInv_run (tr : List BotEvent) : CorrInv (runCorr tr) := by
  suffices h : ∀ s, CorrInv s → CorrInv (tr.foldl stepCorr s) from
    h initCorr corrInv_init
  induction tr with
  | nil => intro s hs; exact hs
  | cons e t ih => intro s hs; exact ih _ (corrInv_step s e hs)

/-! ## Claim theorems -/

/-- C1: for every sequence of handled chat events and timer firings, each
PendingRequest identifier is resolved at most once (it appears at most once
in the resolution log), and a timer firing for an identifier no longer in
the pending-downloads map — the loser of the event/timeout race — is a
no-op on the whole correlator state. -/
theorem pending_request_resolved_at_most_once (tr : List BotEvent) (id : Nat) :
    ((runCorr tr).resolvedLog.map Prod.fst).count id ≤ 1 ∧
    (id ∉ (runCorr tr).pendingDownloads →
      stepCorr (runCorr tr) (.timeoutFire id) = runCorr tr) := by
  obtain ⟨hp, hr, hd⟩ := corrInv_run tr
  refine ⟨List.nodup_iff_count_le_one.mp hr id, ?_⟩
  intro hid
  simp only [stepCorr]
  rw [if_neg]
  simpa using hid

theorem pending_request_resolved_at_most_once_witness :
    ((runCorr [.registerReq 1, .timeoutFire 1]).resolvedLog.map Prod.fst).count 1 ≤ 1 ∧
    stepCorr (runCorr [.registerReq 1, .timeoutFire 1]) (.timeoutFire 1) =
      runCorr [.registerReq 1, .timeoutFire 1] := by
  have h := pending_request_resolved_at_most_once [.registerReq 1, .timeoutFire 1] 1
  exact ⟨h.1, h.2 (by decide)⟩

/-- C2 counterexample: with two waiting requests (registered as 1 then 2),
a terminal media payload resolves BOTH of them — the resolve-all loop of
src/unnamed/part_002 lines 512-515 has no `break` — so request 2 does not
remain unresolved in the map, contrary to the claim. -/
theorem media_resolves_all_pending_counterexample :
    (runCorr [.registerReq 1, .registerReq 2, .mediaOk "/downloads/v.mp4"]).pendingDownloads
      = [] ∧
    (runCorr [.registerReq 1, .registerReq 2, .mediaOk "/downloads/v.mp4"]).resolvedLog
      = [(1, some (.mediaRes "/downloads/v.mp4")),
         (2, some (.mediaRes "/downloads/v.mp4"))] := by
  decide

/-- C2 (amended): a menu (format-list) event resolves exactly the first
waiting request in insertion order and leaves the rest waiting; a terminal
media payload event resolves EVERY waiting request with that event's result
and leaves the map empty. -/
theorem event_resolution_order (s : CorrState) (fmts : List YFormat) (url : String) :
    (∀ k rest, s.pendingDownloads = k :: rest →
      stepCorr s (.formatList fmts) =
        { pendingDownloads := rest,
          resolvedLog := s.resolvedLog ++ [(k, some (.formatsRes fmts))] }) ∧
    stepCorr s (.mediaOk url) =
      { pendingDownloads := [],
        resolvedLog := s.resolvedLog ++
          s.pendingDownloads.map (fun k => (k, some (.mediaRes url))) } := by
  constructor
  · intro k rest hkr
    simp only [stepCorr]
    rw [hkr]
  · rfl

theorem event_resolution_order_witness :
    stepCorr ⟨[1, 2], []⟩ (.formatList [⟨"720p", "50MB"⟩]) =
      ⟨[2], [(1, some (.formatsRes [⟨"720p", "50MB"⟩]))]⟩ ∧
    stepCorr ⟨[1, 2], []⟩ (.mediaOk "/downloads/v.mp4") =
      ⟨[], [(1, some (.mediaRes "/downloads/v.mp4")),
            (2, some (.mediaRes "/downloads/v.mp4"))]⟩ := by
  have h := event_resolution_order ⟨[1, 2], []⟩ [⟨"720p", "50MB"⟩] "/downloads/v.mp4"
  exact ⟨h.1 1 [2] rfl, h.2⟩

/-- C3: a timer firing for a request still waiting in the pending map
deletes its key and resolves it with the null result: afterwards the map no
longer contains the key and the log records a null resolution for it.  The
deadlines are 30 s for a formats request and 120 s for a download request. -/
theorem timeout_clears_pending_with_null (tr : List BotEvent) (id : Nat)
    (h : id ∈ (runCorr tr).pendingDownloads) :
    id ∉ (stepCorr (runCorr tr) (.timeoutFire id)).pendingDownloads ∧
    (id, (none : Option DlResult)) ∈ (stepCorr (runCorr tr) (.timeoutFire id)).resolvedLog ∧
    FORMATS_TIMEOUT_MS = 30000 ∧ DOWNLOAD_TIMEOUT_MS = 120000 := by
  obtain ⟨hp, hr, hd⟩ := corrInv_run tr
  simp only [stepCorr]
  rw [if_pos (by simpa using h)]
  refine ⟨?_, ?_, rfl, rfl⟩
  · exact hp.not_mem_erase
  · simp

theorem timeout_clears_pending_with_null_witness :
    1 ∉ (stepCorr (runCorr [.registerReq 1]) (.timeoutFire 1)).pendingDownloads ∧
    (1, (none : Option DlResult)) ∈
      (stepCorr (runCorr [.registerReq 1]) (.timeoutFire 1)).resolvedLog := by
  have h := timeout_clears_pending_with_null [.registerReq 1] 1 (by decide)
  exact ⟨h.1, h.2.1⟩

/-- C4 counterexample: a photo (`MessageMediaPhoto`) is a terminal payload,
but when its persistence fails, the catch at src/unnamed/part_002 lines
402-409 only resolves the pending requests with null: with the partial file
`/dl/image_1.jpg` on disk and one still-incomplete progress record, the
file still exists after the error path runs and the record is still
incomplete and unmarked — both cleanup conclusions of the claim are false
for this terminal payload. -/
theorem photo_error_no_cleanup_counterexample :
    "/dl/image_1.jpg" ∈ (handlePhotoError ["/dl/image_1.jpg"] ⟨[7], []⟩
        [⟨5, "Requesting", false, false, none, none, none⟩]).1 ∧
    (handlePhotoError ["/dl/image_1.jpg"] ⟨[7], []⟩
        [⟨5, "Requesting", false, false, none, none, none⟩]).2.2 =
      [⟨5, "Requesting", false, false, none, none, none⟩] ∧
    (handlePhotoError ["/dl/image_1.jpg"] ⟨[7], []⟩
        [⟨5, "Requesting", false, false, none, none, none⟩]).2.1 =
      ⟨[], [(7, (none : Option DlResult))]⟩ := by
  decide

/-- C4 (amended): when persistence of a terminal DOCUMENT payload fails,
the error path deletes the partially-written file at the target path,
resolves every waiting pending request with the null (failure) result and
empties the map, and marks every still-incomplete progress record complete,
unsuccessful, with the error message, leaving complete records untouched;
when persistence of a PHOTO payload fails, only the pending requests are
resolved with null — the file system and the progress records are left
unchanged. -/
theorem download_error_cleanup (filePath : String) (fsFiles : List String)
    (s : CorrState) (recs : List ProgRecord) :
    filePath ∉ (handleDownloadError filePath fsFiles s recs).1 ∧
    (handleDownloadError filePath fsFiles s recs).2.1.pendingDownloads = [] ∧
    (handleDownloadError filePath fsFiles s recs).2.1.resolvedLog =
      s.resolvedLog ++ s.pendingDownloads.map (fun k => (k, (none : Option DlResult))) ∧
    (∀ (i : Nat) (r : ProgRecord), recs[i]? = some r →
      (r.complete = true →
        (handleDownloadError filePath fsFiles s recs).2.2[i]? = some r) ∧
      (r.complete = false →
        (handleDownloadError filePath fsFiles s recs).2.2[i]? =
          some { r with complete := true, success := false,
                        error := some "Download failed" })) ∧
    (handlePhotoError fsFiles s recs).1 = fsFiles ∧
    (handlePhotoError fsFiles s recs).2.1.pendingDownloads = [] ∧
    (handlePhotoError fsFiles s recs).2.1.resolvedLog =
      s.resolvedLog ++ s.pendingDownloads.map (fun k => (k, (none : Option DlResult))) ∧
    (handlePhotoError fsFiles s recs).2.2 = recs := by
  refine ⟨?_, rfl, rfl, ?_, rfl, rfl, rfl, rfl⟩
  · intro hmem
    simp only [handleDownloadError, unlinkIfExists, List.mem_filter,
      decide_eq_true_eq] at hmem
    exact hmem.2 rfl
  · intro i r hir
    have hmap : (handleDownloadError filePath fsFiles s recs).2.2[i]? =
        (recs[i]?).map (fun v =>
          if v.complete then v
          else { v with complete := true, success := false,
                        error := some "Download failed" }) := by
      simp [handleDownloadError, markProgressFailed]
    constructor
    · intro hc
      rw [hmap, hir]
      simp [hc]
    · intro hc
      rw [hmap, hir]
      simp [hc]

theorem download_error_cleanup_witness :
    "/dl/video_1.mp4" ∉
      (handleDownloadError "/dl/video_1.mp4" ["/dl/video_1.mp4"] ⟨[1], []⟩
        [⟨5, "Requesting", false, false, none, none, none⟩]).1 ∧
    (handleDownloadError "/dl/video_1.mp4" ["/dl/video_1.mp4"] ⟨[1], []⟩
        [⟨5, "Requesting", false, false, none, none, none⟩]).2.2[0]? =
      some ⟨5, "Requesting", true, false, some "Download failed", none, none⟩ := by
  have h := download_error_cleanup "/dl/video_1.mp4" ["/dl/video_1.mp4"] ⟨[1], []⟩
    [⟨5, "Requesting", false, false, none, none, none⟩]
  exact ⟨h.1, (h.2.2.2.1 0 ⟨5, "Requesting", false, false, none, none, none⟩ rfl).2 rfl⟩

/-- C5: evaluation of the document classifier at concrete inputs.  First:
an audio-only document arriving after a video was recorded is discarded, as
the claim states.  Second: with no recorded video/image AND an empty
pending map, an audio-only document is classified audio and accepted.
Third — the failing input: an audio-only document arriving when NO video or
image has been recorded but one request is pending is dropped by the guard
`alreadyReceivedBetter || pendingDownloads.size > 0`
(src/unnamed/part_002 line 433), contradicting the claim (and the code's
own comment, line 428: skip audio if video/image received). -/
theorem audio_skip_with_pending_requests :
    classifyDocument ["DocumentAttributeAudio"] "audio/mpeg" ["video"] 0 = none ∧
    classifyDocument ["DocumentAttributeAudio"] "audio/mpeg" [] 0 = some .audio ∧
    classifyDocument ["DocumentAttributeAudio"] "audio/mpeg" [] 1 = none := by
  decide

/-- Every parsed format entry comes from a successful scan of its own label:
its quality is one of the fixed labels and its size is exactly that label's
captured `sizeMB` text. -/
lemma mem_parseYouTubeFormats {text : String} {f : YFormat}
    (hf : f ∈ parseYouTubeFormats text) :
    f.quality ∈ formatPatternLabels ∧
    scanLabel f.quality.toList text.toList = some f.size.toList := by
  rw [parseYouTubeFormats, List.mem_filterMap] at hf
  obtain ⟨q, hq, heq⟩ := hf
  cases hscan : scanLabel q.toList text.toList with
  | none => rw [hscan] at heq; simp at heq
  | some cap =>
    rw [hscan] at heq
    simp only [Option.map_some', Option.some.injEq] at heq
    subst heq
    exact ⟨hq, hscan⟩

/-- The qualities of a parse form a sublist of the label vocabulary: each
label contributes its entry in vocabulary order or nothing. -/
lemma parse_qualities_sublist (text : String) :
    List.Sublist ((parseYouTubeFormats text).map (fun f => f.quality))
      formatPatternLabels := by
  rw [parseYouTubeFormats]
  suffices h : ∀ L : List String,
      List.Sublist ((L.filterMap fun q =>
        (scanLabel q.toList text.toList).map fun cap =>
          YFormat.mk q (String.mk cap)).map (fun f => f.quality)) L from
    h formatPatternLabels
  intro L
  induction L with
  | nil => simp
  | cons a t ih =>
    simp only [List.filterMap_cons]
    cases hs : scanLabel a.toList text.toList with
    | none => exact ih.cons a
    | some cap =>
      simp only [Option.map_some', List.map_cons]
      exact ih.cons₂ a

/-- C6: the menu text containing exactly the tokens `720p: 50MB` and
`MP3: 8MB` parses to exactly those two entries; in general every label
whose `label: sizeMB` pattern matches a text contributes its entry with the
exact captured quality/size pair, every entry of a parse carries the exact
pair captured by its own label's pattern, each label contributes at most
one entry, and a label whose pattern finds no match contributes no entry
at all. -/
theorem parse_formats_exact_entries :
    parseYouTubeFormats "720p: 50MB\nMP3: 8MB" =
      [⟨"720p", "50MB"⟩, ⟨"MP3", "8MB"⟩] ∧
    (∀ (text label : String) (cap : List Char), label ∈ formatPatternLabels →
      scanLabel label.toList text.toList = some cap →
      YFormat.mk label (String.mk cap) ∈ parseYouTubeFormats text) ∧
    (∀ (text : String) (f : YFormat), f ∈ parseYouTubeFormats text →
      f.quality ∈ formatPatternLabels ∧
      scanLabel f.quality.toList text.toList = some f.size.toList) ∧
    (∀ text : String, ((parseYouTubeFormats text).map (fun f => f.quality)).Nodup) ∧
    (∀ (text label : String), scanLabel label.toList text.toList = none →
      ∀ sz, YFormat.mk label sz ∉ parseYouTubeFormats text) := by
  refine ⟨by decide, ?_, fun text f hf => mem_parseYouTubeFormats hf, ?_, ?_⟩
  · intro text label cap hlab hscan
    rw [parseYouTubeFormats, List.mem_filterMap]
    exact ⟨label, hlab, by rw [hscan]; rfl⟩
  · intro text
    exact (parse_qualities_sublist text).nodup (by decide)
  · intro text label hnone sz hmem
    have h := mem_parseYouTubeFormats hmem
    rw [h.2] at hnone
    exact Option.some_ne_none _ hnone

theorem parse_formats_exact_entries_witness :
    YFormat.mk "MP3" "8MB" ∈ parseYouTubeFormats "720p: 50MB\nMP3: 8MB" ∧
    (YFormat.mk "720p" "50MB").quality ∈ formatPatternLabels ∧
    scanLabel "720p".toList "720p: 50MB\nMP3: 8MB".toList = some "50MB".toList ∧
    YFormat.mk "1080p" "99MB" ∉ parseYouTubeFormats "no formats here" := by
  have h := parse_formats_exact_entries
  have h1 := h.2.1 "720p: 50MB\nMP3: 8MB" "MP3" "8MB".toList (by decide) (by decide)
  have h2 := h.2.2.1 "720p: 50MB\nMP3: 8MB" ⟨"720p", "50MB"⟩ (by decide)
  exact ⟨h1, h2.1, h2.2, h.2.2.2.2 "no formats here" "1080p" (by decide) "99MB"⟩

/-- C7 counterexample: on the classified progress text `■ 5% 45%` the code
extracts the FIRST `NN%` match, 5, and writes percent 5 into the incomplete
record, while the trailing `NN%` pattern of the claim's wording would give
45 — so the percentage is not extracted via a trailing pattern. -/
theorem progress_percent_first_not_trailing :
    isProgressText "■ 5% 45%" = true ∧
    findPercent "■ 5% 45%".toList = some 5 ∧
    trailingPercentSpec "■ 5% 45%" = some 45 ∧
    handleProgressText "■ 5% 45%"
        [⟨0, "Starting", false, false, none, none, none⟩] =
      [⟨5, "Downloading: 5%", false, false, none, none, none⟩] ∧
    (5 : Nat) ≠ 45 := by
  decide

/-- C7 (amended): on a classified progress text the percentage is extracted
via the FIRST `NN%` match, and is broadcast to every still-incomplete
record's percent and status while complete records are left entirely
unchanged; a progress text whose first match is `45%` sets every incomplete
record's percent to 45. -/
theorem progress_broadcast_first_match :
    (∀ (text : String) (recs : List ProgRecord) (p : Nat),
      isProgressText text = true →
      findPercent text.toList = some p →
      ∀ (i : Nat) (r : ProgRecord), recs[i]? = some r →
        (r.complete = true → (handleProgressText text recs)[i]? = some r) ∧
        (r.complete = false → (handleProgressText text recs)[i]? =
          some { r with progress := p,
                        status := "Downloading: " ++ toString p ++ "%" })) ∧
    handleProgressText "📥 Downloading 45%"
        [⟨10, "Processing", false, false, none, none, none⟩,
         ⟨100, "done", true, true, none, none, none⟩] =
      [⟨45, "Downloading: 45%", false, false, none, none, none⟩,
       ⟨100, "done", true, true, none, none, none⟩] := by
  constructor
  · intro text recs p hcls hfp i r hir
    have hfp' : findPercent text.data = some p := hfp
    have hun : handleProgressText text recs = applyProgressBroadcast p recs := by
      simp [handleProgressText, hcls, hfp']
    have hmap : (applyProgressBroadcast p recs)[i]? =
        (recs[i]?).map (fun v =>
          if v.complete then v
          else { v with progress := p,
                        status := "Downloading: " ++ toString p ++ "%" }) := by
      simp [applyProgressBroadcast]
    constructor
    · intro hc
      rw [hun, hmap, hir]
      simp [hc]
    · intro hc
      rw [hun, hmap, hir]
      simp [hc]
  · decide

theorem progress_broadcast_first_match_witness :
    (handleProgressText "📥 Downloading 45%"
        [⟨10, "Processing", false, false, none, none, none⟩])[0]? =
      some ⟨45, "Downloading: 45%", false, false, none, none, none⟩ := by
  have h := progress_broadcast_first_match.1 "📥 Downloading 45%"
    [⟨10, "Processing", false, false, none, none, none⟩] 45
    (by decide) (by decide) 0
    ⟨10, "Processing", false, false, none, none, none⟩ rfl
  exact h.2 rfl

/-- C8: a connection error whose message contains the duplicate-session
class marks the connection down, clears the reconnecting flag and leaves
the reconnect timer exactly as it was — neither the client error handler
nor the `initTelegram` catch block schedules a reconnect from that path;
any other error marks the connection down and schedules a reconnect
(subject to the serialization guard: the client error handler arms the
timer whenever no reconnection is already in progress, and the catch block,
which clears the flag first, always arms it). -/
theorem dup_session_halts_reconnect (msg : String) (s : ConnState) :
    (strIncludes msg DUP_SESSION = true →
      clientErrorHandler msg s =
        { s with isConnected := false, isReconnecting := false } ∧
      (clientErrorHandler msg s).reconnectTimer = s.reconnectTimer ∧
      initCatchHandler msg s =
        { s with isConnected := false, isReconnecting := false }) ∧
    (strIncludes msg DUP_SESSION = false →
      (clientErrorHandler msg s).isConnected = false ∧
      (s.isReconnecting = false →
        (clientErrorHandler msg s).reconnectTimer = true) ∧
      (initCatchHandler msg s).reconnectTimer = true) := by
  constructor
  · intro hdup
    refine ⟨?_, ?_, ?_⟩ <;>
      simp [clientErrorHandler, initCatchHandler, hdup]
  · intro hndup
    refine ⟨?_, ?_, ?_⟩
    · simp only [clientErrorHandler, hndup, Bool.false_eq_true, if_false,
        scheduleReconnect]
      split <;> rfl
    · intro hnr
      simp [clientErrorHandler, hndup, scheduleReconnect, hnr]
    · simp [initCatchHandler, hndup, scheduleReconnect]

theorem dup_session_halts_reconnect_witness :
    clientErrorHandler "🚨 AUTH_KEY_DUPLICATED" ⟨true, false, false⟩ =
      ⟨false, false, false⟩ ∧
    (clientErrorHandler "read ECONNRESET" ⟨true, false, false⟩).reconnectTimer
      = true := by
  have h1 := (dup_session_halts_reconnect "🚨 AUTH_KEY_DUPLICATED"
    ⟨true, false, false⟩).1 (by decide)
  have h2 := (dup_session_halts_reconnect "read ECONNRESET"
    ⟨true, false, false⟩).2 (by decide)
  exact ⟨h1.1, h2.2.1 rfl⟩

/-- C9: a `bytes=start-end` range request on an existing file yields a 206
response with `Content-Range` `bytes start-end/total` and `Content-Length`
`end - start + 1`, streaming exactly that many body bytes; concretely,
`bytes=100-199` against a 1000-byte file yields 206,
`Content-Range: bytes 100-199/1000` and exactly 100 body bytes; a request
with no `Range` header yields a 200 with the full file. -/
theorem byte_range_semantics :
    (∀ size start endv : Nat, start ≤ endv → endv < size →
      rangeResp size start endv =
        { status := 206,
          contentRange := some (contentRangeStr start endv size),
          contentLength := (endv : Int) - (start : Int) + 1,
          bodyLen := endv - start + 1 }) ∧
    serveDownload 1000 (some "bytes=100-199") =
      { status := 206, contentRange := some "bytes 100-199/1000",
        contentLength := 100, bodyLen := 100 } ∧
    (∀ size : Nat, serveDownload size none =
      { status := 200, contentRange := none, contentLength := (size : Int),
        bodyLen := size }) := by
  refine ⟨?_, by decide, fun size => rfl⟩
  intro size start endv h1 h2
  have h3 : start < size := lt_of_le_of_lt h1 h2
  simp only [rangeResp, FileResp.mk.injEq, streamLen, if_pos h3, and_true,
    true_and]
  omega

theorem byte_range_semantics_witness :
    rangeResp 1000 100 199 =
      { status := 206, contentRange := some (contentRangeStr 100 199 1000),
        contentLength := 100, bodyLen := 100 } := by
  exact byte_range_semantics.1 1000 100 199 (by decide) (by decide)

/-- C10: a progress poll for an identifier absent from the progress map
answers with the default 200 status and the fixed not-found body
(progress 0, status `Unknown request`, complete, unsuccessful, error
`Request not found`), and leaves the map unchanged. -/
theorem progress_unknown_request_response (id : Nat)
    (m : List (Nat × ProgRecord)) (h : lookupProgress id m = none) :
    progressEndpoint id m = (200, progressNotFoundBody, m) ∧
    progressNotFoundBody =
      { progress := 0, status := "Unknown request", complete := true,
        success := false, error := some "Request not found",
        videoUrl := none, fileName := none } := by
  refine ⟨?_, rfl⟩
  simp [progressEndpoint, h]

theorem progress_unknown_request_response_witness :
    progressEndpoint 7 [(3, progressNotFoundBody)] =
      (200, progressNotFoundBody, [(3, progressNotFoundBody)]) := by
  exact (progress_unknown_request_response 7 [(3, progressNotFoundBody)] rfl).1

end Downloader
